import Mathlib

/-!
Verification development for the betapi-backend statistical modeling and
EV-opportunity engine.

The JavaScript source is shallowly embedded in Lean:
numbers are modelled by exact arithmetic (rationals for the pure algebraic
pipeline, reals where the Poisson model needs the exponential function),
nullable values by Option, and object records by structures.  Narrative
string fields (explanations, reasons, notes) are presentational only and
are not modelled.
-/

namespace Betapi

/-! ## JavaScript numeric helpers -/

/-- Rounding to two decimals, as performed by toFixed(2) followed by
parseFloat on the ev_pct field: round half toward positive infinity. -/
def roundTo2 (x : ℚ) : ℚ := (round (x * 100) : ℤ) / 100

/-- Leading-decimal-integer parse modelling parseInt on a score fragment:
skip leading spaces, read a run of decimal digits, and fail (NaN) when no
digit is present.  Score fragments never carry signs because they come
from splitting on the dash character. -/
def jsParseInt (s : String) : Option ℕ :=
  let ds := (s.toList.dropWhile (fun c => c = ' ')).takeWhile Char.isDigit
  if ds.isEmpty then none
  else some (ds.foldl (fun acc c => 10 * acc + (c.toNat - 48)) 0)

/-! ## statistical-model.service.js : score parsing and form analysis -/

/-- One historical match record: the participant identifiers and the
(score string) ss field, which may be absent. -/
structure MatchRec where
  homeId : ℕ
  awayId : ℕ
  ss : Option String
deriving Repr

/-- Character-level split on the dash separator, with the semantics of
the JavaScript split call on a one-character separator. -/
def splitCharsOnDash : List Char → List (List Char)
  | [] => [[]]
  | c :: cs =>
    let rest := splitCharsOnDash cs
    if c = '-' then [] :: rest
    else
      match rest with
      | [] => [[c]]
      | g :: gs => (c :: g) :: gs

/-- Split of a string on the dash separator. -/
def splitOnDash (s : String) : List String :=
  (splitCharsOnDash s.toList).map fun cs => String.mk cs

/-- parseScore from statistical-model.service.js: a missing, empty or
non-two-part score string yields none; each part is parsed with
parseInt(x) or-else 0. -/
def parseScore (scoreString : Option String) : Option (ℕ × ℕ) :=
  match scoreString with
  | none => none
  | some s =>
    if s = "" then none
    else
      match splitOnDash s with
      | [a, b] => some ((jsParseInt a).getD 0, (jsParseInt b).getD 0)
      | _ => none

/-- TeamForm: the record returned by analyzeTeamForm. -/
structure TeamForm where
  goalsScored : ℚ
  goalsConceded : ℚ
  wins : ℕ
  draws : ℕ
  losses : ℕ
  matchCount : ℕ
deriving Repr, DecidableEq

/-- HeadToHeadSummary: the record returned by analyzeH2H. -/
structure H2HData where
  homeWins : ℕ
  draws : ℕ
  awayWins : ℕ
  avgHomeGoals : ℚ
  avgAwayGoals : ℚ
  matchCount : ℕ
deriving Repr, DecidableEq

/-- Accumulator for the forEach loop of analyzeTeamForm. -/
structure FormState where
  goalsScored : ℕ
  goalsConceded : ℕ
  wins : ℕ
  draws : ℕ
  losses : ℕ
  validMatches : ℕ
deriving Repr, DecidableEq

/-- Loop body of analyzeTeamForm: records with an unparseable score are
skipped, otherwise goals are attributed by whether the team was home in
that historical fixture. -/
def formStep (teamId : ℕ) (s : FormState) (m : MatchRec) : FormState :=
  match parseScore m.ss with
  | none => s
  | some score =>
    let wasHome := m.homeId = teamId
    let teamGoals := if wasHome then score.1 else score.2
    let oppGoals := if wasHome then score.2 else score.1
    { goalsScored := s.goalsScored + teamGoals
      goalsConceded := s.goalsConceded + oppGoals
      wins := if oppGoals < teamGoals then s.wins + 1 else s.wins
      draws := if teamGoals = oppGoals then s.draws + 1 else s.draws
      losses := if teamGoals < oppGoals then s.losses + 1 else s.losses
      validMatches := s.validMatches + 1 }

/-- The forEach aggregation of analyzeTeamForm over a list of records. -/
def formFold (teamId : ℕ) (ms : List MatchRec) : FormState :=
  ms.foldl (formStep teamId) ⟨0, 0, 0, 0, 0, 0⟩

/-- RECENT_MATCHES_COUNT from the service constructor. -/
def RECENT_MATCHES_COUNT : ℕ := 10

/-- analyzeTeamForm: null or empty input yields the 1.5/1.5 default with
sample size 0; otherwise the last RECENT_MATCHES_COUNT records are
aggregated and averaged over the valid samples (falling back to 1.5 when
no record parses).  The isHomeTeam flag is accepted but unused, as in the
source. -/
def analyzeTeamForm (matchList : Option (List MatchRec)) (_isHomeTeam : Bool)
    (teamId : ℕ) : TeamForm :=
  match matchList with
  | none => ⟨1.5, 1.5, 0, 0, 0, 0⟩
  | some ms =>
    if ms.isEmpty then ⟨1.5, 1.5, 0, 0, 0, 0⟩
    else
      let st := formFold teamId (ms.take RECENT_MATCHES_COUNT)
      { goalsScored :=
          if 0 < st.validMatches then (st.goalsScored : ℚ) / st.validMatches else 1.5
        goalsConceded :=
          if 0 < st.validMatches then (st.goalsConceded : ℚ) / st.validMatches else 1.5
        wins := st.wins
        draws := st.draws
        losses := st.losses
        matchCount := st.validMatches }

/-- Accumulator for the forEach loop of analyzeH2H. -/
structure H2HState where
  homeWins : ℕ
  draws : ℕ
  awayWins : ℕ
  totalHomeGoals : ℕ
  totalAwayGoals : ℕ
  validMatches : ℕ
deriving Repr, DecidableEq

/-- Loop body of analyzeH2H: skip unparseable scores, re-orient each
historical score onto the current fixture's home/away roles, then tally. -/
def h2hStep (homeTeamId : ℕ) (s : H2HState) (m : MatchRec) : H2HState :=
  match parseScore m.ss with
  | none => s
  | some score =>
    let homeGoals := if m.homeId = homeTeamId then score.1 else score.2
    let awayGoals := if m.homeId = homeTeamId then score.2 else score.1
    { homeWins := if awayGoals < homeGoals then s.homeWins + 1 else s.homeWins
      draws := if homeGoals = awayGoals then s.draws + 1 else s.draws
      awayWins := if homeGoals < awayGoals then s.awayWins + 1 else s.awayWins
      totalHomeGoals := s.totalHomeGoals + homeGoals
      totalAwayGoals := s.totalAwayGoals + awayGoals
      validMatches := s.validMatches + 1 }

/-- The forEach aggregation of analyzeH2H over a list of records. -/
def h2hFold (homeTeamId : ℕ) (ms : List MatchRec) : H2HState :=
  ms.foldl (h2hStep homeTeamId) ⟨0, 0, 0, 0, 0, 0⟩

/-- analyzeH2H: null or empty input yields the default summary; the
awayTeamId parameter is accepted but the orientation test uses only the
home identifier, as in the source. -/
def analyzeH2H (h2hMatches : Option (List MatchRec)) (homeTeamId : ℕ)
    (_awayTeamId : ℕ) : H2HData :=
  match h2hMatches with
  | none => ⟨0, 0, 0, 1.5, 1.5, 0⟩
  | some ms =>
    if ms.isEmpty then ⟨0, 0, 0, 1.5, 1.5, 0⟩
    else
      let st := h2hFold homeTeamId ms
      { homeWins := st.homeWins
        draws := st.draws
        awayWins := st.awayWins
        avgHomeGoals :=
          if 0 < st.validMatches then (st.totalHomeGoals : ℚ) / st.validMatches else 1.5
        avgAwayGoals :=
          if 0 < st.validMatches then (st.totalAwayGoals : ℚ) / st.validMatches else 1.5
        matchCount := st.validMatches }

/-! ## Expected-goals synthesizer -/

/-- HOME_ADVANTAGE from the service constructor. -/
def HOME_ADVANTAGE : ℚ := 1.15

/-- FORM_WEIGHT from the service constructor. -/
def FORM_WEIGHT : ℚ := 0.7

/-- H2H_WEIGHT from the service constructor. -/
def H2H_WEIGHT : ℚ := 0.3

/-- ExpectedGoals: the pair of Poisson rate parameters. -/
structure ExpectedGoals where
  home : ℚ
  away : ℚ
deriving Repr, DecidableEq

/-- calculateExpectedGoals: form rates with home advantage, optional H2H
blending at sample size at least 3, opponent-defense averaging, and a
floor of 0.3 on each side. -/
def calculateExpectedGoals (homeForm awayForm : TeamForm) (h2hData : H2HData) :
    ExpectedGoals :=
  let homeExpectedGoals := homeForm.goalsScored * HOME_ADVANTAGE
  let awayExpectedGoals := awayForm.goalsScored
  let homeExpectedGoals :=
    if 3 ≤ h2hData.matchCount then
      homeExpectedGoals * FORM_WEIGHT + h2hData.avgHomeGoals * H2H_WEIGHT
    else homeExpectedGoals
  let awayExpectedGoals :=
    if 3 ≤ h2hData.matchCount then
      awayExpectedGoals * FORM_WEIGHT + h2hData.avgAwayGoals * H2H_WEIGHT
    else awayExpectedGoals
  let homeExpectedGoals := (homeExpectedGoals + awayForm.goalsConceded) / 2
  let awayExpectedGoals := (awayExpectedGoals + homeForm.goalsConceded) / 2
  { home := max 0.3 homeExpectedGoals
    away := max 0.3 awayExpectedGoals }

/-- Spec-side restatement of the expected-goals synthesis, written step by
step from the words of the specification (section 4.3), to be compared
with the source-derived definition. -/
def expectedGoalsSpecSide (formHome formAway : TeamForm) (h2h : H2HData) :
    ℚ × ℚ :=
  let baseHome := formHome.goalsScored * 1.15
  let baseAway := formAway.goalsScored
  let blendedHome :=
    if 3 ≤ h2h.matchCount then baseHome * 0.7 + h2h.avgHomeGoals * 0.3 else baseHome
  let blendedAway :=
    if 3 ≤ h2h.matchCount then baseAway * 0.7 + h2h.avgAwayGoals * 0.3 else baseAway
  (max 0.3 ((blendedHome + formAway.goalsConceded) / 2),
   max 0.3 ((blendedAway + formHome.goalsConceded) / 2))

/-! ## Market probability calculator (Poisson model, over the reals) -/

/-- factorial from the service: an iterative product equal to the usual
factorial function. -/
def factorial (n : ℕ) : ℕ := Nat.factorial n

/-- poissonProbability: the Poisson probability mass at k for rate
lambda. -/
noncomputable def poissonProbability (lambda : ℝ) (k : ℕ) : ℝ :=
  lambda ^ k * Real.exp (-lambda) / (factorial k : ℝ)

/-- Probabilities of the three 1X2 outcomes. -/
structure Prob1X2 where
  home : ℝ
  draw : ℝ
  away : ℝ

/-- Accumulated joint probability of the score combinations, over zero to
six goals per side, on which the given outcome condition holds. -/
noncomputable def jointSum (homeGoals awayGoals : ℝ) (cond : ℕ → ℕ → Prop)
    [∀ i j, Decidable (cond i j)] : ℝ :=
  ∑ i ∈ Finset.range 7, ∑ j ∈ Finset.range 7,
    if cond i j then poissonProbability homeGoals i * poissonProbability awayGoals j
    else 0

/-- Home-win bucket of the 1X2 summation. -/
noncomputable def homeBucket (homeGoals awayGoals : ℝ) : ℝ :=
  jointSum homeGoals awayGoals fun i j => j < i

/-- Draw bucket of the 1X2 summation. -/
noncomputable def drawBucket (homeGoals awayGoals : ℝ) : ℝ :=
  jointSum homeGoals awayGoals fun i j => i = j

/-- Away-win bucket of the 1X2 summation. -/
noncomputable def awayBucket (homeGoals awayGoals : ℝ) : ℝ :=
  jointSum homeGoals awayGoals fun i j => i < j

/-- Normalization total of the 1X2 summation. -/
noncomputable def bucketTotal (homeGoals awayGoals : ℝ) : ℝ :=
  homeBucket homeGoals awayGoals + drawBucket homeGoals awayGoals +
    awayBucket homeGoals awayGoals

/-- calculate1X2Probabilities: double Poisson summation over score
combinations with zero to six goals per side, bucketed by comparison and
normalized by the bucket total. -/
noncomputable def calculate1X2Probabilities (homeGoals awayGoals : ℝ) : Prob1X2 :=
  { home := homeBucket homeGoals awayGoals / bucketTotal homeGoals awayGoals
    draw := drawBucket homeGoals awayGoals / bucketTotal homeGoals awayGoals
    away := awayBucket homeGoals awayGoals / bucketTotal homeGoals awayGoals }

/-- Probabilities of the over/under 2.5 outcomes. -/
structure ProbOU where
  over : ℝ
  under : ℝ

/-- calculateOverUnderProbabilities: the under probability sums the joint
mass over totals of at most two goals; over is its complement. -/
noncomputable def calculateOverUnderProbabilities (homeGoals awayGoals : ℝ) : ProbOU :=
  let under25 := jointSum homeGoals awayGoals fun i j => i + j ≤ 2
  { over := 1 - under25
    under := under25 }

/-- Probabilities of the both-teams-to-score outcomes. -/
structure ProbBTTS where
  yes : ℝ
  no : ℝ

/-- calculateBTTSProbabilities: inclusion-exclusion on either side
failing to score; no is the complement of yes. -/
noncomputable def calculateBTTSProbabilities (homeGoals awayGoals : ℝ) : ProbBTTS :=
  let homeNoGoals := poissonProbability homeGoals 0
  let awayNoGoals := poissonProbability awayGoals 0
  let bothScore := 1 - (homeNoGoals + awayNoGoals - homeNoGoals * awayNoGoals)
  { yes := bothScore
    no := 1 - bothScore }

/-! ## Statistics predictor -/

/-- calculateConfidence: the static per-category confidence table with a
default of 60 for unknown categories.  The value argument is accepted but
unused, as in the source. -/
def calculateConfidence (_value : ℚ) (type : String) : ℕ :=
  if type = "corners" then 75
  else if type = "shots" then 70
  else if type = "shots_on_target" then 68
  else if type = "offsides" then 60
  else if type = "fouls" then 65
  else if type = "cards" then 55
  else 60

/-- calculatePoissonOverUnder: cumulative Poisson mass up to the floor of
the line, and its complement. -/
noncomputable def calculatePoissonOverUnder (lambda : ℝ) (line : ℚ) : ℝ × ℝ :=
  let underProb := ∑ k ∈ Finset.range (⌊line⌋.toNat + 1), poissonProbability lambda k
  (1 - underProb, underProb)

/-- One directional corner market emitted by generateCornerMarkets.  The
market label string of the source is represented by the numeric line; the
reasoning text is presentational and not modelled. -/
structure CornerMarket where
  line : ℚ
  prediction : String
  probability : ℝ

/-- generateCornerMarkets: evaluate the fixed totals lines and emit a
directional market whenever one side reaches sixty percent cumulative
probability. -/
noncomputable def generateCornerMarkets (totalCorners : ℤ) : List CornerMarket :=
  [(8.5 : ℚ), 9.5, 10.5, 11.5, 12.5].filterMap fun line =>
    let p := calculatePoissonOverUnder (totalCorners : ℝ) line
    if 0.6 ≤ p.1 ∨ 0.6 ≤ p.2 then
      some { line := line
             prediction := if p.2 < p.1 then "Over" else "Under"
             probability := max p.1 p.2 }
    else none

/-- Integer prediction range min/max. -/
structure RangeI where
  min : ℤ
  max : ℤ

/-- Corner total block of the predictions object. -/
structure CornersTotal where
  prediction : ℤ
  range : RangeI
  confidence : ℕ
  markets : List CornerMarket

/-- Corner block of the predictions object. -/
structure CornersPred where
  total : CornersTotal
  home : ℤ
  away : ℤ

/-- Shots-style total block of the predictions object. -/
structure ShotsTotal where
  prediction : ℤ
  range : RangeI
  confidence : ℕ

/-- Shots-style block of the predictions object. -/
structure ShotsPred where
  total : ShotsTotal
  home : ℤ
  away : ℤ

/-- Flat block of the predictions object (offsides, fouls, cards). -/
structure SimpleStatPred where
  total : ℤ
  home : ℤ
  away : ℤ
  confidence : ℕ

/-- The stats_predictions object. -/
structure StatsPredictions where
  corners : CornersPred
  shots : ShotsPred
  shots_on_target : ShotsPred
  offsides : SimpleStatPred
  fouls : SimpleStatPred
  cards : SimpleStatPred

/-- calculateMatchStatsPredictions: fixed empirical ratios applied to the
expected-goals pair, rounded to integers, with confidence tags.  The
historical narrative fields built from historyData are presentational
strings and are not modelled. -/
noncomputable def calculateMatchStatsPredictions (_homeForm _awayForm : TeamForm)
    (expectedGoals : ExpectedGoals) : StatsPredictions :=
  let homeAttackingIntent := expectedGoals.home
  let awayAttackingIntent := expectedGoals.away
  -- corners per goal 4.5
  let homeCorners : ℤ := round (homeAttackingIntent * 4.5)
  let awayCorners : ℤ := round (awayAttackingIntent * 4.5)
  let totalCorners := homeCorners + awayCorners
  -- shots per goal 7
  let homeShots : ℤ := round (homeAttackingIntent * 7)
  let awayShots : ℤ := round (awayAttackingIntent * 7)
  let totalShots := homeShots + awayShots
  -- shots on target ratio 0.35
  let homeShotsOnTarget : ℤ := round ((homeShots : ℚ) * 0.35)
  let awayShotsOnTarget : ℤ := round ((awayShots : ℚ) * 0.35)
  -- offsides per goal 2
  let homeOffsides : ℤ := round (homeAttackingIntent * 2)
  let awayOffsides : ℤ := round (awayAttackingIntent * 2)
  -- fouls base 12 scaled by the competitiveness factor
  let competitiveFactor : ℚ := 1 + |homeAttackingIntent - awayAttackingIntent| * 0.2
  let homeFouls : ℤ := round ((12 : ℚ) * competitiveFactor)
  let awayFouls : ℤ := round ((12 : ℚ) * competitiveFactor)
  -- cards ratio 0.25
  let homeCards : ℤ := round ((homeFouls : ℚ) * 0.25)
  let awayCards : ℤ := round ((awayFouls : ℚ) * 0.25)
  { corners :=
      { total :=
          { prediction := totalCorners
            range := { min := max (totalCorners - 3) 0, max := totalCorners + 3 }
            confidence := calculateConfidence (totalCorners : ℚ) "corners"
            markets := generateCornerMarkets totalCorners }
        home := homeCorners
        away := awayCorners }
    shots :=
      { total :=
          { prediction := totalShots
            range := { min := max (totalShots - 5) 0, max := totalShots + 5 }
            confidence := calculateConfidence (totalShots : ℚ) "shots" }
        home := homeShots
        away := awayShots }
    shots_on_target :=
      { total :=
          { prediction := homeShotsOnTarget + awayShotsOnTarget
            range := { min := max (homeShotsOnTarget + awayShotsOnTarget - 3) 0
                       max := homeShotsOnTarget + awayShotsOnTarget + 3 }
            confidence :=
              calculateConfidence ((homeShotsOnTarget + awayShotsOnTarget : ℤ) : ℚ)
                "shots_on_target" }
        home := homeShotsOnTarget
        away := awayShotsOnTarget }
    offsides :=
      { total := homeOffsides + awayOffsides
        home := homeOffsides
        away := awayOffsides
        confidence :=
          calculateConfidence ((homeOffsides + awayOffsides : ℤ) : ℚ) "offsides" }
    fouls :=
      { total := homeFouls + awayFouls
        home := homeFouls
        away := awayFouls
        confidence := 70 }
    cards :=
      { total := homeCards + awayCards
        home := homeCards
        away := awayCards
        confidence := 60 } }

/-! ## Main model entry point : calculateProbabilities -/

/-- calculateReliability: capped contributions from the three sample
counts, capped overall at 100. -/
def calculateReliability (h2hCount homeFormCount awayFormCount : ℕ) : ℚ :=
  let score : ℚ := 0
  let score := score + min ((h2hCount : ℚ) * 5) 30
  let score := score + min ((homeFormCount : ℚ) * 3.5) 35
  let score := score + min ((awayFormCount : ℚ) * 3.5) 35
  min score 100

/-- The results field of the history bundle; each match list may be
absent. -/
structure HistoryResults where
  h2h : Option (List MatchRec)
  home : Option (List MatchRec)
  away : Option (List MatchRec)

/-- The history bundle passed to calculateProbabilities; the results
field may be absent. -/
structure HistoryData where
  results : Option HistoryResults

/-- Data-quality block attached to the 1X2 market estimate. -/
structure DataQuality where
  h2h_matches : ℕ
  home_form_matches : ℕ
  away_form_matches : ℕ
  reliability : ℚ

/-- The 1X2 market estimate produced by calculateProbabilities. -/
structure Market1X2 where
  probabilities : Prob1X2
  fair_odds : Prob1X2
  data_quality : DataQuality

/-- The over/under market estimate produced by calculateProbabilities. -/
structure MarketOU where
  probabilities : ProbOU
  fair_odds : ProbOU
  expected_total_goals : ℚ

/-- Team scoring block attached to the BTTS market estimate. -/
structure TeamScoring where
  home_avg : ℚ
  away_avg : ℚ

/-- The BTTS market estimate produced by calculateProbabilities. -/
structure MarketBTTS where
  probabilities : ProbBTTS
  fair_odds : ProbBTTS
  team_scoring : TeamScoring

/-- Metadata block of the model result. -/
structure ModelMetadata where
  home_expected_goals : ℚ
  away_expected_goals : ℚ
  h2h_summary : H2HData
  home_form : TeamForm
  away_form : TeamForm

/-- The full model result returned by calculateProbabilities when history
data is present. -/
structure ProbabilitiesResult where
  m1X2 : Market1X2
  mOU : MarketOU
  mBTTS : MarketBTTS
  metadata : ModelMetadata
  stats_predictions : StatsPredictions

/-- calculateProbabilities: returns none when the history bundle or its
results field is missing, and otherwise assembles the three market
estimates (probabilities and reciprocal fair odds), metadata and the
statistics predictions.  Explanation strings are presentational and not
modelled. -/
noncomputable def calculateProbabilities (historyData : Option HistoryData)
    (homeTeamId awayTeamId : ℕ) : Option ProbabilitiesResult :=
  match historyData with
  | none => none
  | some hd =>
    match hd.results with
    | none => none
    | some res =>
      let h2hData := analyzeH2H res.h2h homeTeamId awayTeamId
      let homeForm := analyzeTeamForm res.home true homeTeamId
      let awayForm := analyzeTeamForm res.away false awayTeamId
      let expectedGoals := calculateExpectedGoals homeForm awayForm h2hData
      let prob1X2 :=
        calculate1X2Probabilities (expectedGoals.home : ℝ) (expectedGoals.away : ℝ)
      let probOU :=
        calculateOverUnderProbabilities (expectedGoals.home : ℝ) (expectedGoals.away : ℝ)
      let probBTTS :=
        calculateBTTSProbabilities (expectedGoals.home : ℝ) (expectedGoals.away : ℝ)
      let statsPredictions :=
        calculateMatchStatsPredictions homeForm awayForm expectedGoals
      some
        { m1X2 :=
            { probabilities := prob1X2
              fair_odds :=
                { home := 1 / prob1X2.home, draw := 1 / prob1X2.draw
                  away := 1 / prob1X2.away }
              data_quality :=
                { h2h_matches := h2hData.matchCount
                  home_form_matches := homeForm.matchCount
                  away_form_matches := awayForm.matchCount
                  reliability :=
                    calculateReliability h2hData.matchCount homeForm.matchCount
                      awayForm.matchCount } }
          mOU :=
            { probabilities := probOU
              fair_odds := { over := 1 / probOU.over, under := 1 / probOU.under }
              expected_total_goals := expectedGoals.home + expectedGoals.away }
          mBTTS :=
            { probabilities := probBTTS
              fair_odds := { yes := 1 / probBTTS.yes, no := 1 / probBTTS.no }
              team_scoring :=
                { home_avg := homeForm.goalsScored, away_avg := awayForm.goalsScored } }
          metadata :=
            { home_expected_goals := expectedGoals.home
              away_expected_goals := expectedGoals.away
              h2h_summary := h2hData
              home_form := homeForm
              away_form := awayForm }
          stats_predictions := statsPredictions }

/-! ## EV calculator service -/

/-- calculateFairOdds from the EV calculator: reciprocal price for a
positive probability and the sentinel 0 otherwise. -/
def calculateFairOdds (probabilities : String → ℚ) : String → ℚ :=
  fun key => if 0 < probabilities key then 1 / probabilities key else 0

/-- calculateEV: expected-value percentage, with 0 returned when the
odds are missing or at most 1 or the probability is zero (the falsy
guard of the source). -/
def calculateEV (bookmakerOdds trueProbability : ℚ) : ℚ :=
  if bookmakerOdds ≤ 1 ∨ trueProbability = 0 then 0
  else (bookmakerOdds * trueProbability - 1) * 100

/-- One bookmaker of the odds bundle: a name and, per market key, an
optional outcome-to-price mapping. -/
structure Bookmaker where
  name : String
  markets : String → Option (String → ℚ)

/-- Price quoted by a bookmaker for an outcome of a market it carries. -/
def oddsOf (b : Bookmaker) (marketType outcome : String) : ℚ :=
  match b.markets marketType with
  | some odds => odds outcome
  | none => 0

/-- Per-outcome odds range of calculateMarketAverage. -/
structure OddsRange where
  min : ℚ
  max : ℚ
  spread : ℚ
deriving Repr, DecidableEq

/-- Result record of calculateMarketAverage. -/
structure MarketAverage where
  avgOdds : String → ℚ
  oddsRange : String → OddsRange
  bookmakerCount : String → ℕ

/-- calculateMarketAverage: for each outcome, the average, range and
count over the prices above 1 quoted by bookmakers carrying the
market. -/
def calculateMarketAverage (bookmakers : List Bookmaker) (marketType : String)
    (_outcomes : List String) : MarketAverage :=
  let allOddsFor := fun outcome =>
    ((bookmakers.filter (fun b => (b.markets marketType).isSome)).map
        (fun b => oddsOf b marketType outcome)).filter (fun o => 1 < o)
  { avgOdds := fun outcome =>
      match allOddsFor outcome with
      | [] => 0
      | x :: xs => (x :: xs).sum / (x :: xs).length
    oddsRange := fun outcome =>
      match allOddsFor outcome with
      | [] => ⟨0, 0, 0⟩
      | x :: xs =>
        { min := xs.foldl min x
          max := xs.foldl max x
          spread := xs.foldl max x - xs.foldl min x }
    bookmakerCount := fun outcome => (allOddsFor outcome).length }

/-- Per-market statistical input consumed by the EV calculator: the
probabilities and fair_odds fields of one market estimate, as
outcome-keyed mappings. -/
structure MarketStatProbs where
  probabilities : String → ℚ
  fair_odds : String → ℚ

/-- One EV opportunity.  The narrative reason field is presentational and
not modelled. -/
structure Opportunity where
  market : String
  outcome : String
  bookmaker : String
  bookmaker_odds : ℚ
  fair_odds : ℚ
  probability : ℚ
  ev_pct : ℚ
deriving Repr, DecidableEq

/-- The opportunity record pushed for one bookmaker and outcome. -/
def mkOpportunity (marketType : String) (b : Bookmaker) (outcome : String)
    (sp : MarketStatProbs) : Opportunity :=
  { market := marketType
    outcome := outcome
    bookmaker := b.name
    bookmaker_odds := oddsOf b marketType outcome
    fair_odds := sp.fair_odds outcome
    probability := sp.probabilities outcome
    ev_pct := roundTo2 (calculateEV (oddsOf b marketType outcome) (sp.probabilities outcome)) }

/-- The opportunity list in push order: bookmakers outer, outcomes inner,
retaining exactly the pairs whose EV reaches the threshold. -/
def preOpportunities (marketType : String) (outcomes : List String)
    (relevantBookmakers : List Bookmaker) (sp : MarketStatProbs)
    (minEVThreshold : ℚ) : List Opportunity :=
  relevantBookmakers.flatMap fun b =>
    outcomes.filterMap fun outcome =>
      let ev := calculateEV (oddsOf b marketType outcome) (sp.probabilities outcome)
      if minEVThreshold ≤ ev then some (mkOpportunity marketType b outcome sp)
      else none

/-- Descending order on the rounded EV percentage, the comparator of the
sort calls of the EV calculator. -/
def evDescRel (a b : Opportunity) : Prop := b.ev_pct ≤ a.ev_pct

instance : DecidableRel evDescRel :=
  fun a b => inferInstanceAs (Decidable (b.ev_pct ≤ a.ev_pct))

instance : IsTotal Opportunity evDescRel :=
  ⟨fun a b => le_total b.ev_pct a.ev_pct⟩

instance : IsTrans Opportunity evDescRel :=
  ⟨fun _ _ _ hab hbc => le_trans hbc hab⟩

/-- Stable descending sort on the rounded EV percentage, modelling the
stable JavaScript array sort with comparator b.ev_pct - a.ev_pct. -/
def sortByEvDesc (l : List Opportunity) : List Opportunity :=
  l.insertionSort evDescRel

/-- Result record of one per-market EV calculation. -/
structure MarketEVResult where
  probabilities : String → ℚ
  fair_odds : String → ℚ
  odds_range : String → OddsRange
  opportunities : List Opportunity

/-- Common body of calculate1X2EV, calculateOUEV and calculateBTTSEV,
which differ only in the market key and outcome list: null when no
bookmaker carries the market or no statistical estimate is supplied,
otherwise the statistical probabilities and fair odds together with the
threshold-filtered, EV-sorted opportunity list. -/
def calculateMarketEV (marketType : String) (outcomes : List String)
    (bookmakers : List Bookmaker) (statisticalProbs : Option MarketStatProbs)
    (minEVThreshold : ℚ) : Option MarketEVResult :=
  let relevantBookmakers := bookmakers.filter (fun b => (b.markets marketType).isSome)
  match statisticalProbs with
  | none => none
  | some sp =>
    if relevantBookmakers.isEmpty then none
    else
      some
        { probabilities := sp.probabilities
          fair_odds := sp.fair_odds
          odds_range := (calculateMarketAverage bookmakers marketType outcomes).oddsRange
          opportunities :=
            sortByEvDesc (preOpportunities marketType outcomes relevantBookmakers sp
              minEVThreshold) }

/-- calculate1X2EV, as an instance of the common market body. -/
def calculate1X2EV (bookmakers : List Bookmaker)
    (statisticalProbs : Option MarketStatProbs) (minEVThreshold : ℚ) :
    Option MarketEVResult :=
  calculateMarketEV "1X2" ["home", "draw", "away"] bookmakers statisticalProbs
    minEVThreshold

/-- calculateOUEV, as an instance of the common market body. -/
def calculateOUEV (bookmakers : List Bookmaker)
    (statisticalProbs : Option MarketStatProbs) (minEVThreshold : ℚ) :
    Option MarketEVResult :=
  calculateMarketEV "O/U 2.5" ["over", "under"] bookmakers statisticalProbs
    minEVThreshold

/-- calculateBTTSEV, as an instance of the common market body. -/
def calculateBTTSEV (bookmakers : List Bookmaker)
    (statisticalProbs : Option MarketStatProbs) (minEVThreshold : ℚ) :
    Option MarketEVResult :=
  calculateMarketEV "BTTS" ["yes", "no"] bookmakers statisticalProbs minEVThreshold

/-- The odds bundle passed to calculateMatchEV; the bookmaker list may be
absent. -/
structure OddsData where
  bookmakers : Option (List Bookmaker)

/-- The statistical probability bundle consumed by calculateMatchEV: one
market estimate per market key. -/
structure StatisticalProbabilities where
  m1X2 : MarketStatProbs
  mOU : MarketStatProbs
  mBTTS : MarketStatProbs

/-- Result record of calculateMatchEV. -/
structure MatchEVResult where
  ev1X2 : Option MarketEVResult
  evOU : Option MarketEVResult
  evBTTS : Option MarketEVResult
  all_opportunities : List Opportunity

/-- Opportunity list of an optional market result, empty when null. -/
def opportunitiesOf (r : Option MarketEVResult) : List Opportunity :=
  (r.map (fun m => m.opportunities)).getD []

/-- calculateMatchEV: all market fields null and no opportunities when
the odds bundle or its bookmaker list is missing or empty or when no
statistical probabilities are available; otherwise the three per-market
results plus the cross-market opportunity list sorted by descending EV
percentage. -/
def calculateMatchEV (oddsData : Option OddsData)
    (statisticalProbabilities : Option StatisticalProbabilities)
    (minEVThreshold : ℚ) : MatchEVResult :=
  match oddsData with
  | none => ⟨none, none, none, []⟩
  | some od =>
    match od.bookmakers with
    | none => ⟨none, none, none, []⟩
    | some bms =>
      if bms.isEmpty then ⟨none, none, none, []⟩
      else
        match statisticalProbabilities with
        | none => ⟨none, none, none, []⟩
        | some sp =>
          let ev1X2 := calculate1X2EV bms (some sp.m1X2) minEVThreshold
          let evOU := calculateOUEV bms (some sp.mOU) minEVThreshold
          let evBTTS := calculateBTTSEV bms (some sp.mBTTS) minEVThreshold
          { ev1X2 := ev1X2
            evOU := evOU
            evBTTS := evBTTS
            all_opportunities :=
              sortByEvDesc (opportunitiesOf ev1X2 ++ opportunitiesOf evOU ++
                opportunitiesOf evBTTS) }

/-! ## Concrete fixtures used by witness statements -/

/-- Boolean key test on the rounded EV percentage, used to state
stability of the sorts. -/
def evKeyPred (v : ℚ) : Opportunity → Bool := fun o => decide (o.ev_pct = v)

/-- A bookmaker quoting only the 1X2 market: 3.0 on home and 2.0 on the
other outcomes. -/
def wBookmaker : Bookmaker :=
  { name := "bet365"
    markets := fun mt =>
      if mt = "1X2" then some (fun k => if k = "home" then 3 else 2) else none }

/-- A statistical market estimate: probability 0.40 on home and 0.25
elsewhere. -/
def wStat : MarketStatProbs :=
  { probabilities := fun k => if k = "home" then 2 / 5 else 1 / 4
    fair_odds := fun k => if k = "home" then 5 / 2 else 4 }

/-- A statistical bundle using the same estimate on every market. -/
def wStatFull : StatisticalProbabilities := ⟨wStat, wStat, wStat⟩

/-- An odds bundle carrying one bookmaker. -/
def wOddsData : OddsData := ⟨some [wBookmaker]⟩

/-- The single opportunity produced from the fixtures above. -/
def wOpportunity : Opportunity := mkOpportunity "1X2" wBookmaker "home" wStat

/-- Fallback market result used to extract an Option value. -/
def wMarketResultDefault : MarketEVResult :=
  ⟨fun _ => 0, fun _ => 0, fun _ => ⟨0, 0, 0⟩, []⟩

/-- The concrete 1X2 market result for the fixtures above. -/
def wMarketResult : MarketEVResult :=
  (calculateMarketEV "1X2" ["home", "draw", "away"] [wBookmaker] (some wStat) 4).getD
    wMarketResultDefault

/-- A parseable historical record. -/
def wMatchRec : MatchRec := ⟨1, 2, some "2-1"⟩

/-- A record with an unparseable score string. -/
def wBadRec : MatchRec := ⟨1, 2, some "x"⟩

/-- A default team form. -/
def wForm : TeamForm := ⟨1.5, 1.5, 0, 0, 0, 0⟩

/-- A concrete expected-goals pair. -/
def wEG : ExpectedGoals := ⟨1.5, 1.2⟩

/-! ## Helper lemmas -/

theorem ite_some_none_eq_some {α : Type} {c : Prop} [Decidable c] {a b : α} :
    (if c then some a else none) = some b ↔ c ∧ a = b := by
  split_ifs with h <;> simp [h]

/-! ### Form and H2H aggregation lemmas -/

theorem formStep_skip (teamId : ℕ) (s : FormState) (m : MatchRec)
    (h : parseScore m.ss = none) : formStep teamId s m = s := by
  unfold formStep
  rw [h]

theorem h2hStep_skip (homeTeamId : ℕ) (s : H2HState) (m : MatchRec)
    (h : parseScore m.ss = none) : h2hStep homeTeamId s m = s := by
  unfold h2hStep
  rw [h]

theorem formFold_skip (teamId : ℕ) (l1 l2 : List MatchRec) (r : MatchRec)
    (h : parseScore r.ss = none) :
    formFold teamId (l1 ++ r :: l2) = formFold teamId (l1 ++ l2) := by
  unfold formFold
  rw [List.foldl_append, List.foldl_append, List.foldl_cons,
    formStep_skip teamId _ r h]

theorem h2hFold_skip (homeTeamId : ℕ) (l1 l2 : List MatchRec) (r : MatchRec)
    (h : parseScore r.ss = none) :
    h2hFold homeTeamId (l1 ++ r :: l2) = h2hFold homeTeamId (l1 ++ l2) := by
  unfold h2hFold
  rw [List.foldl_append, List.foldl_append, List.foldl_cons,
    h2hStep_skip homeTeamId _ r h]

theorem formState_invariant (teamId : ℕ) :
    ∀ (l : List MatchRec) (s : FormState),
      s.wins + s.draws + s.losses = s.validMatches →
      ((l.foldl (formStep teamId) s).wins + (l.foldl (formStep teamId) s).draws +
          (l.foldl (formStep teamId) s).losses) =
        (l.foldl (formStep teamId) s).validMatches
  | [], _, hs => hs
  | m :: l, s, hs => by
    rw [List.foldl_cons]
    refine formState_invariant teamId l (formStep teamId s m) ?_
    unfold formStep
    cases hp : parseScore m.ss with
    | none => exact hs
    | some score =>
      dsimp only
      rcases Nat.lt_trichotomy (if m.homeId = teamId then score.1 else score.2)
          (if m.homeId = teamId then score.2 else score.1) with h | h | h
      · rw [if_neg (by omega), if_neg (by omega), if_pos h]
        omega
      · rw [if_neg (by omega), if_pos h, if_neg (by omega)]
        omega
      · rw [if_pos h, if_neg (by omega), if_neg (by omega)]
        omega

theorem h2hState_invariant (homeTeamId : ℕ) :
    ∀ (l : List MatchRec) (s : H2HState),
      s.homeWins + s.draws + s.awayWins = s.validMatches →
      ((l.foldl (h2hStep homeTeamId) s).homeWins +
          (l.foldl (h2hStep homeTeamId) s).draws +
          (l.foldl (h2hStep homeTeamId) s).awayWins) =
        (l.foldl (h2hStep homeTeamId) s).validMatches
  | [], _, hs => hs
  | m :: l, s, hs => by
    rw [List.foldl_cons]
    refine h2hState_invariant homeTeamId l (h2hStep homeTeamId s m) ?_
    unfold h2hStep
    cases hp : parseScore m.ss with
    | none => exact hs
    | some score =>
      dsimp only
      rcases Nat.lt_trichotomy (if m.homeId = homeTeamId then score.1 else score.2)
          (if m.homeId = homeTeamId then score.2 else score.1) with h | h | h
      · rw [if_neg (by omega), if_neg (by omega), if_pos h]
        omega
      · rw [if_neg (by omega), if_pos h, if_neg (by omega)]
        omega
      · rw [if_pos h, if_neg (by omega), if_neg (by omega)]
        omega

/-! ### EV engine lemmas -/

theorem mem_preOpportunities {mt : String} {ks : List String} {rel : List Bookmaker}
    {sp : MarketStatProbs} {th : ℚ} {o : Opportunity} :
    o ∈ preOpportunities mt ks rel sp th ↔
      ∃ b ∈ rel, ∃ k ∈ ks,
        th ≤ calculateEV (oddsOf b mt k) (sp.probabilities k) ∧
          mkOpportunity mt b k sp = o := by
  unfold preOpportunities
  simp only [List.mem_flatMap, List.mem_filterMap, ite_some_none_eq_some]

theorem ev_of_mem_preOpportunities {mt : String} {ks : List String}
    {rel : List Bookmaker} {sp : MarketStatProbs} {th : ℚ} {o : Opportunity}
    (ho : o ∈ preOpportunities mt ks rel sp th) :
    th ≤ calculateEV o.bookmaker_odds o.probability := by
  rw [mem_preOpportunities] at ho
  obtain ⟨b, _, k, _, hev, rfl⟩ := ho
  exact hev

theorem calculateMarketEV_opportunities {mt : String} {ks : List String}
    {bms : List Bookmaker} {sp : MarketStatProbs} {th : ℚ} {r : MarketEVResult}
    (h : calculateMarketEV mt ks bms (some sp) th = some r) :
    r.opportunities =
      sortByEvDesc (preOpportunities mt ks
        (bms.filter fun b => (b.markets mt).isSome) sp th) := by
  unfold calculateMarketEV at h
  dsimp only at h
  by_cases he : (bms.filter fun b => (b.markets mt).isSome).isEmpty = true
  · rw [if_pos he] at h
    exact absurd h (by simp)
  · rw [if_neg he] at h
    injection h with h2
    subst h2
    rfl

theorem mem_sortByEvDesc {o : Opportunity} {l : List Opportunity} :
    o ∈ sortByEvDesc l ↔ o ∈ l := by
  simp [sortByEvDesc]

theorem sorted_sortByEvDesc (l : List Opportunity) :
    List.Sorted evDescRel (sortByEvDesc l) :=
  List.sorted_insertionSort evDescRel l

theorem filter_orderedInsert_key (v : ℚ) (a : Opportunity) (ha : a.ev_pct = v) :
    ∀ l : List Opportunity,
      (l.orderedInsert evDescRel a).filter (evKeyPred v) =
        a :: l.filter (evKeyPred v)
  | [] => by simp [List.orderedInsert, evKeyPred, ha]
  | b :: l => by
    have hpa : evKeyPred v a = true := by simp [evKeyPred, ha]
    by_cases hab : evDescRel a b
    · rw [List.orderedInsert, if_pos hab, List.filter_cons_of_pos hpa]
    · rw [List.orderedInsert, if_neg hab]
      have hbv : ¬b.ev_pct = v := fun hbv =>
        hab (by unfold evDescRel; rw [hbv, ha])
      have hpb : ¬evKeyPred v b = true := by simp [evKeyPred, hbv]
      rw [List.filter_cons_of_neg hpb, List.filter_cons_of_neg hpb,
        filter_orderedInsert_key v a ha l]

theorem filter_orderedInsert_ne (v : ℚ) (a : Opportunity) (ha : ¬a.ev_pct = v) :
    ∀ l : List Opportunity,
      (l.orderedInsert evDescRel a).filter (evKeyPred v) = l.filter (evKeyPred v)
  | [] => by simp [List.orderedInsert, evKeyPred, ha]
  | b :: l => by
    have hpa : ¬evKeyPred v a = true := by simp [evKeyPred, ha]
    by_cases hab : evDescRel a b
    · rw [List.orderedInsert, if_pos hab, List.filter_cons_of_neg hpa]
    · rw [List.orderedInsert, if_neg hab, List.filter_cons, List.filter_cons,
        filter_orderedInsert_ne v a ha l]

theorem filter_insertionSort_key (v : ℚ) :
    ∀ l : List Opportunity,
      (List.insertionSort evDescRel l).filter (evKeyPred v) = l.filter (evKeyPred v)
  | [] => rfl
  | a :: l => by
    show ((List.insertionSort evDescRel l).orderedInsert evDescRel a).filter
        (evKeyPred v) = _
    by_cases ha : a.ev_pct = v
    · rw [filter_orderedInsert_key v a ha _, filter_insertionSort_key v l,
        List.filter_cons_of_pos (by simp [evKeyPred, ha])]
    · rw [filter_orderedInsert_ne v a ha _, filter_insertionSort_key v l,
        List.filter_cons_of_neg (by simp [evKeyPred, ha])]

theorem filter_sortByEvDesc (v : ℚ) (l : List Opportunity) :
    (sortByEvDesc l).filter (evKeyPred v) = l.filter (evKeyPred v) :=
  filter_insertionSort_key v l

theorem mem_opportunities_marketEV {mt : String} {ks : List String}
    {bms : List Bookmaker} {spo : Option MarketStatProbs} {th : ℚ} {o : Opportunity}
    (ho : o ∈ opportunitiesOf (calculateMarketEV mt ks bms spo th)) :
    th ≤ calculateEV o.bookmaker_odds o.probability := by
  cases spo with
  | none => simp [calculateMarketEV, opportunitiesOf] at ho
  | some sp =>
    cases hr : calculateMarketEV mt ks bms (some sp) th with
    | none => rw [hr] at ho; simp [opportunitiesOf] at ho
    | some r =>
      rw [hr] at ho
      simp only [opportunitiesOf, Option.map_some', Option.getD_some] at ho
      rw [calculateMarketEV_opportunities hr, mem_sortByEvDesc] at ho
      exact ev_of_mem_preOpportunities ho

theorem calculate1X2EV_def (bms : List Bookmaker) (spo : Option MarketStatProbs)
    (th : ℚ) :
    calculate1X2EV bms spo th =
      calculateMarketEV "1X2" ["home", "draw", "away"] bms spo th := rfl

theorem calculateOUEV_def (bms : List Bookmaker) (spo : Option MarketStatProbs)
    (th : ℚ) :
    calculateOUEV bms spo th =
      calculateMarketEV "O/U 2.5" ["over", "under"] bms spo th := rfl

theorem calculateBTTSEV_def (bms : List Bookmaker) (spo : Option MarketStatProbs)
    (th : ℚ) :
    calculateBTTSEV bms spo th =
      calculateMarketEV "BTTS" ["yes", "no"] bms spo th := rfl

/-! ### Poisson model lemmas -/

theorem poissonProbability_pos {lambda : ℝ} (hl : 0 < lambda) (k : ℕ) :
    0 < poissonProbability lambda k := by
  unfold poissonProbability
  refine div_pos (mul_pos (pow_pos hl k) (Real.exp_pos _)) ?_
  unfold factorial
  exact_mod_cast Nat.factorial_pos k

theorem poissonProbability_zero (lambda : ℝ) :
    poissonProbability lambda 0 = Real.exp (-lambda) := by
  unfold poissonProbability factorial
  simp

theorem jointSum_eq_prod (hg ag : ℝ) (cond : ℕ → ℕ → Prop)
    [∀ i j, Decidable (cond i j)] :
    jointSum hg ag cond =
      ∑ p ∈ Finset.range 7 ×ˢ Finset.range 7,
        if cond p.1 p.2 then
          poissonProbability hg p.1 * poissonProbability ag p.2
        else 0 := by
  rw [Finset.sum_product]
  rfl

theorem jointSum_pos {hg ag : ℝ} (hh : 0 < hg) (ha : 0 < ag)
    (cond : ℕ → ℕ → Prop) [∀ i j, Decidable (cond i j)] {i j : ℕ}
    (hi : i < 7) (hj : j < 7) (hc : cond i j) : 0 < jointSum hg ag cond := by
  rw [jointSum_eq_prod]
  refine Finset.sum_pos' (fun p _ => ?_) ⟨(i, j), ?_, ?_⟩
  · by_cases h : cond p.1 p.2
    · rw [if_pos h]
      exact le_of_lt (mul_pos (poissonProbability_pos hh _) (poissonProbability_pos ha _))
    · rw [if_neg h]
  · exact Finset.mem_product.mpr ⟨Finset.mem_range.mpr hi, Finset.mem_range.mpr hj⟩
  · rw [if_pos hc]
    exact mul_pos (poissonProbability_pos hh _) (poissonProbability_pos ha _)

theorem jointSum_lt_true {hg ag : ℝ} (hh : 0 < hg) (ha : 0 < ag)
    (cond : ℕ → ℕ → Prop) [∀ i j, Decidable (cond i j)] {i j : ℕ}
    (hi : i < 7) (hj : j < 7) (hc : ¬cond i j) :
    jointSum hg ag cond < jointSum hg ag fun _ _ => True := by
  rw [jointSum_eq_prod, jointSum_eq_prod]
  refine Finset.sum_lt_sum (fun p _ => ?_) ⟨(i, j), ?_, ?_⟩
  · by_cases h : cond p.1 p.2
    · rw [if_pos h, if_pos trivial]
    · rw [if_neg h, if_pos trivial]
      exact le_of_lt (mul_pos (poissonProbability_pos hh _) (poissonProbability_pos ha _))
  · exact Finset.mem_product.mpr ⟨Finset.mem_range.mpr hi, Finset.mem_range.mpr hj⟩
  · rw [if_neg hc, if_pos trivial]
    exact mul_pos (poissonProbability_pos hh _) (poissonProbability_pos ha _)

theorem jointSum_true_eq (hg ag : ℝ) :
    jointSum hg ag (fun _ _ => True) =
      (∑ i ∈ Finset.range 7, poissonProbability hg i) *
        ∑ j ∈ Finset.range 7, poissonProbability ag j := by
  rw [Finset.sum_mul_sum]
  unfold jointSum
  simp

theorem bucketTotal_eq (hg ag : ℝ) :
    bucketTotal hg ag = jointSum hg ag fun _ _ => True := by
  unfold bucketTotal homeBucket drawBucket awayBucket jointSum
  rw [← Finset.sum_add_distrib, ← Finset.sum_add_distrib]
  refine Finset.sum_congr rfl fun i _ => ?_
  rw [← Finset.sum_add_distrib, ← Finset.sum_add_distrib]
  refine Finset.sum_congr rfl fun j _ => ?_
  rcases lt_trichotomy j i with h | h | h
  · have h1 : ¬i = j := by omega
    have h2 : ¬i < j := by omega
    simp [h, h1, h2]
  · have h1 : ¬j < i := by omega
    have h2 : ¬i < j := by omega
    simp [h, h1, h2]
  · have h1 : ¬j < i := by omega
    have h2 : ¬i = j := by omega
    simp [h, h1, h2]

theorem sum_poisson_pos {lambda : ℝ} (hl : 0 < lambda) :
    0 < ∑ i ∈ Finset.range 7, poissonProbability lambda i :=
  Finset.sum_pos (fun i _ => poissonProbability_pos hl i)
    ⟨0, Finset.mem_range.mpr (by norm_num)⟩

theorem sum_poisson_le_one {lambda : ℝ} (hl : 0 < lambda) :
    ∑ i ∈ Finset.range 7, poissonProbability lambda i ≤ 1 := by
  have heq : ∀ k : ℕ,
      poissonProbability lambda k =
        Real.exp (-lambda) * (lambda ^ k / (Nat.factorial k : ℝ)) := by
    intro k
    unfold poissonProbability factorial
    ring
  calc
    ∑ i ∈ Finset.range 7, poissonProbability lambda i =
        Real.exp (-lambda) *
          ∑ i ∈ Finset.range 7, lambda ^ i / (Nat.factorial i : ℝ) := by
      rw [Finset.mul_sum]
      exact Finset.sum_congr rfl fun i _ => heq i
    _ ≤ Real.exp (-lambda) * Real.exp lambda := by
      exact mul_le_mul_of_nonneg_left (Real.sum_le_exp_of_nonneg hl.le 7)
        (Real.exp_nonneg _)
    _ = 1 := by
      rw [← Real.exp_add]
      simp

theorem bucketTotal_pos {hg ag : ℝ} (hh : 0 < hg) (ha : 0 < ag) :
    0 < bucketTotal hg ag := by
  rw [bucketTotal_eq, jointSum_true_eq]
  exact mul_pos (sum_poisson_pos hh) (sum_poisson_pos ha)

theorem under25_lt_one {hg ag : ℝ} (hh : 0 < hg) (ha : 0 < ag) :
    jointSum hg ag (fun i j => i + j ≤ 2) < 1 := by
  have h1 : jointSum hg ag (fun i j => i + j ≤ 2) <
      jointSum hg ag fun _ _ => True :=
    jointSum_lt_true hh ha _ (i := 6) (j := 6) (by norm_num) (by norm_num)
      (by norm_num)
  have h2 : jointSum hg ag (fun _ _ => True) ≤ 1 := by
    rw [jointSum_true_eq]
    exact mul_le_one₀ (sum_poisson_le_one hh) (sum_poisson_pos ha).le
      (sum_poisson_le_one ha)
  linarith

/-! ## Claim theorems -/

/-- C1: for every bookmaker price accepted by the EV computation (price
above 1, nonzero model probability), the computed EV percentage is
exactly (price times probability minus one) times one hundred, and the
concrete quote 3.0 against probability 0.40 yields exactly 20. -/
theorem C1_ev_formula :
    (∀ b p : ℚ, 1 < b → p ≠ 0 → calculateEV b p = (b * p - 1) * 100) ∧
      calculateEV 3 (2 / 5) = 20 := by
  constructor
  · intro b p hb hp
    unfold calculateEV
    rw [if_neg]
    push_neg
    exact ⟨hb, hp⟩
  · norm_num [calculateEV]

/-- C1 witness: the formula instantiated at the concrete quote. -/
theorem C1_ev_formula_witness :
    (1 : ℚ) < 3 ∧ (2 / 5 : ℚ) ≠ 0 ∧
      calculateEV 3 (2 / 5) = (3 * (2 / 5) - 1) * 100 :=
  ⟨by norm_num, by norm_num,
    C1_ev_formula.1 3 (2 / 5) (by norm_num) (by norm_num)⟩

/-- C4: the source expected-goals synthesis agrees with the step-by-step
synthesis written from the specification (home-advantage multiplier 1.15,
blending weights 0.7 and 0.3 applied exactly when the H2H sample size is
at least 3, opponent-concession averaging), and both returned rates are
floored at 0.3. -/
theorem C4_expected_goals :
    ∀ (hf af : TeamForm) (h2 : H2HData),
      (calculateExpectedGoals hf af h2).home = (expectedGoalsSpecSide hf af h2).1 ∧
      (calculateExpectedGoals hf af h2).away = (expectedGoalsSpecSide hf af h2).2 ∧
      (3 : ℚ) / 10 ≤ (calculateExpectedGoals hf af h2).home ∧
      (3 : ℚ) / 10 ≤ (calculateExpectedGoals hf af h2).away := by
  intro hf af h2
  refine ⟨rfl, rfl, ?_, ?_⟩
  · show (3 : ℚ) / 10 ≤ max 0.3 _
    rw [show (0.3 : ℚ) = 3 / 10 by norm_num]
    exact le_max_left _ _
  · show (3 : ℚ) / 10 ≤ max 0.3 _
    rw [show (0.3 : ℚ) = 3 / 10 by norm_num]
    exact le_max_left _ _

/-- C10: the win/draw/loss tallies of the form analyzer and the
home-win/draw/away-win tallies of the H2H analyzer each sum to the
reported match count, for every input. -/
theorem C10_bucket_partition :
    (∀ (ms : Option (List MatchRec)) (ih : Bool) (tid : ℕ),
        (analyzeTeamForm ms ih tid).wins + (analyzeTeamForm ms ih tid).draws +
            (analyzeTeamForm ms ih tid).losses =
          (analyzeTeamForm ms ih tid).matchCount) ∧
      ∀ (ms : Option (List MatchRec)) (hid aid : ℕ),
        (analyzeH2H ms hid aid).homeWins + (analyzeH2H ms hid aid).draws +
            (analyzeH2H ms hid aid).awayWins =
          (analyzeH2H ms hid aid).matchCount := by
  constructor
  · intro ms ih tid
    cases ms with
    | none => rfl
    | some l =>
      unfold analyzeTeamForm
      dsimp only
      by_cases hl : l.isEmpty
      · rw [if_pos hl]
        rfl
      · rw [if_neg hl]
        exact formState_invariant tid (l.take RECENT_MATCHES_COUNT) _ rfl

  · intro ms hid aid
    cases ms with
    | none => rfl
    | some l =>
      unfold analyzeH2H
      dsimp only
      by_cases hl : l.isEmpty
      · rw [if_pos hl]
        rfl
      · rw [if_neg hl]
        exact h2hState_invariant hid l _ rfl

/-- C6: a historical record whose score string is unparseable is skipped
by the form and H2H aggregations: the loop body leaves the accumulator
unchanged, so the record contributes nothing to goals, tallies or the
valid sample count, and the surrounding analyzers return the same result
with or without the record (for the form analyzer, whenever the
ten-match window is not at capacity, since the window is cut before the
aggregation runs).  All functions are total, so the record never aborts
the computation. -/
theorem C6_unparseable_skipped :
    (∀ (tid : ℕ) (s : FormState) (r : MatchRec), parseScore r.ss = none →
        formStep tid s r = s) ∧
    (∀ (hid : ℕ) (s : H2HState) (r : MatchRec), parseScore r.ss = none →
        h2hStep hid s r = s) ∧
    (∀ (tid : ℕ) (ih : Bool) (l1 l2 : List MatchRec) (r : MatchRec),
        parseScore r.ss = none →
        (l1 ++ r :: l2).length ≤ RECENT_MATCHES_COUNT →
        analyzeTeamForm (some (l1 ++ r :: l2)) ih tid =
          analyzeTeamForm (some (l1 ++ l2)) ih tid) ∧
    (∀ (hid aid : ℕ) (l1 l2 : List MatchRec) (r : MatchRec),
        parseScore r.ss = none →
        analyzeH2H (some (l1 ++ r :: l2)) hid aid =
          analyzeH2H (some (l1 ++ l2)) hid aid) := by
  refine ⟨formStep_skip, h2hStep_skip, ?_, ?_⟩
  · intro tid ih l1 l2 r hr hlen
    have hlen2 : (l1 ++ l2).length ≤ RECENT_MATCHES_COUNT := by
      simp only [List.length_append, List.length_cons] at hlen ⊢
      omega
    unfold analyzeTeamForm
    dsimp only
    have h1 : ¬(l1 ++ r :: l2).isEmpty = true := by simp [List.isEmpty_iff]
    by_cases h12 : (l1 ++ l2).isEmpty = true
    · obtain ⟨rfl, rfl⟩ : l1 = [] ∧ l2 = [] := by
        simpa [List.isEmpty_iff] using h12
      rw [if_neg h1, if_pos h12]
      simp only [List.nil_append]
      have hst : formFold tid (List.take RECENT_MATCHES_COUNT [r]) = ⟨0, 0, 0, 0, 0, 0⟩ := by
        show formStep tid ⟨0, 0, 0, 0, 0, 0⟩ r = _
        rw [formStep_skip tid _ r hr]
      rw [hst]
      rfl
    · rw [if_neg h1, if_neg h12, List.take_of_length_le hlen,
        List.take_of_length_le hlen2, formFold_skip tid l1 l2 r hr]
  · intro hid aid l1 l2 r hr
    unfold analyzeH2H
    dsimp only
    have h1 : ¬(l1 ++ r :: l2).isEmpty = true := by simp [List.isEmpty_iff]
    by_cases h12 : (l1 ++ l2).isEmpty = true
    · obtain ⟨rfl, rfl⟩ : l1 = [] ∧ l2 = [] := by
        simpa [List.isEmpty_iff] using h12
      rw [if_neg h1, if_pos h12]
      simp only [List.nil_append]
      have hst : h2hFold hid [r] = ⟨0, 0, 0, 0, 0, 0⟩ := by
        show h2hStep hid ⟨0, 0, 0, 0, 0, 0⟩ r = _
        rw [h2hStep_skip hid _ r hr]
      rw [hst]
      rfl
    · rw [if_neg h1, if_neg h12, h2hFold_skip hid l1 l2 r hr]

/-- C6 witness: the skip property at a concrete unparseable record. -/
theorem C6_unparseable_skipped_witness :
    parseScore wBadRec.ss = none ∧
      ([] ++ wBadRec :: [wMatchRec]).length ≤ RECENT_MATCHES_COUNT ∧
      analyzeTeamForm (some ([] ++ wBadRec :: [wMatchRec])) true 1 =
        analyzeTeamForm (some ([] ++ [wMatchRec])) true 1 ∧
      analyzeH2H (some ([] ++ wBadRec :: [wMatchRec])) 1 2 =
        analyzeH2H (some ([] ++ [wMatchRec])) 1 2 :=
  ⟨rfl, by decide,
    C6_unparseable_skipped.2.2.1 1 true [] [wMatchRec] wBadRec rfl (by decide),
    C6_unparseable_skipped.2.2.2 1 2 [] [wMatchRec] wBadRec rfl⟩

/-- C7 counterexample: at a concrete input, the emitted predictions
object carries confidence 70 on fouls and 60 on cards, not the 65 and 55
of the static confidence table, refuting the claimed emitted values. -/
theorem C7_confidence_counterexample :
    (calculateMatchStatsPredictions wForm wForm wEG).fouls.confidence = 70 ∧
      (calculateMatchStatsPredictions wForm wForm wEG).fouls.confidence ≠ 65 ∧
      (calculateMatchStatsPredictions wForm wForm wEG).cards.confidence = 60 ∧
      (calculateMatchStatsPredictions wForm wForm wEG).cards.confidence ≠ 55 := by
  have hf : (calculateMatchStatsPredictions wForm wForm wEG).fouls.confidence = 70 := rfl
  have hc : (calculateMatchStatsPredictions wForm wForm wEG).cards.confidence = 60 := rfl
  exact ⟨hf, by rw [hf]; norm_num, hc, by rw [hc]; norm_num⟩

/-- C7 amended: for every input, the emitted predictions carry the static
confidences corners 75, shots 70, shots-on-target 68 and offsides 60 from
the confidence table, while fouls and cards carry the hardcoded
confidences 70 and 60; the table itself lists 65 for fouls and 55 for
cards but is not consulted for those two categories. -/
theorem C7_confidence_amended :
    ∀ (hf af : TeamForm) (eg : ExpectedGoals),
      (calculateMatchStatsPredictions hf af eg).corners.total.confidence = 75 ∧
      (calculateMatchStatsPredictions hf af eg).shots.total.confidence = 70 ∧
      (calculateMatchStatsPredictions hf af eg).shots_on_target.total.confidence = 68 ∧
      (calculateMatchStatsPredictions hf af eg).offsides.confidence = 60 ∧
      (calculateMatchStatsPredictions hf af eg).fouls.confidence = 70 ∧
      (calculateMatchStatsPredictions hf af eg).cards.confidence = 60 ∧
      calculateConfidence 0 "fouls" = 65 ∧
      calculateConfidence 0 "cards" = 55 :=
  fun _ _ _ => ⟨rfl, rfl, rfl, rfl, rfl, rfl, rfl, rfl⟩

/-- C8 counterexample: with a history bundle whose results field is
present but whose match lists are all empty, the model returns a
populated (non-null) result, refuting the claim that empty historical
data yields null. -/
theorem C8_null_counterexample :
    (calculateProbabilities (some ⟨some ⟨some [], some [], some []⟩⟩) 1 2).isSome =
      true := rfl

/-- C8 amended: the model returns null exactly when the history bundle or
its results field is missing (never raising); with a present results
field, even one holding only empty match lists, the result is non-null
and built from defaults.  The overall EV computation returns all three
market fields null and an empty opportunity list when the odds bundle or
its bookmaker list is missing or empty or when no statistical
probabilities are available. -/
theorem C8_null_behavior :
    (∀ hid aid : ℕ, calculateProbabilities none hid aid = none) ∧
    (∀ (hd : HistoryData) (hid aid : ℕ), hd.results = none →
        calculateProbabilities (some hd) hid aid = none) ∧
    (∀ (res : HistoryResults) (hid aid : ℕ),
        (calculateProbabilities (some ⟨some res⟩) hid aid).isSome = true) ∧
    (∀ (sp : Option StatisticalProbabilities) (th : ℚ),
        calculateMatchEV none sp th = ⟨none, none, none, []⟩) ∧
    (∀ (sp : Option StatisticalProbabilities) (th : ℚ),
        calculateMatchEV (some ⟨none⟩) sp th = ⟨none, none, none, []⟩) ∧
    (∀ (sp : Option StatisticalProbabilities) (th : ℚ),
        calculateMatchEV (some ⟨some []⟩) sp th = ⟨none, none, none, []⟩) ∧
    (∀ (od : Option OddsData) (th : ℚ),
        calculateMatchEV od none th = ⟨none, none, none, []⟩) := by
  refine ⟨fun _ _ => rfl, ?_, fun _ _ _ => rfl, fun _ _ => rfl, fun _ _ => rfl,
    fun _ _ => rfl, ?_⟩
  · intro hd hid aid h
    cases hd with
    | mk results =>
      cases h
      rfl
  · intro od th
    match od with
    | none => rfl
    | some ⟨none⟩ => rfl
    | some ⟨some l⟩ =>
      unfold calculateMatchEV
      dsimp only
      by_cases h : l.isEmpty = true
      · rw [if_pos h]
      · rw [if_neg h]

/-- C8 witness: the null return at a concrete bundle with a missing
results field. -/
theorem C8_null_behavior_witness :
    (⟨none⟩ : HistoryData).results = none ∧
      calculateProbabilities (some ⟨none⟩) 1 2 = none :=
  ⟨rfl, C8_null_behavior.2.1 ⟨none⟩ 1 2 rfl⟩

/-- C2: for every bookmaker bundle, statistical input and threshold
value, an opportunity appears in a market result exactly when its EV
percentage reaches the threshold: every emitted opportunity satisfies the
threshold (also across markets in all_opportunities), and every
bookmaker/outcome pair meeting the threshold is emitted. -/
theorem C2_threshold_filter :
    (∀ (mt : String) (ks : List String) (bms : List Bookmaker)
        (sp : MarketStatProbs) (th : ℚ) (r : MarketEVResult),
        calculateMarketEV mt ks bms (some sp) th = some r →
        ∀ o ∈ r.opportunities, th ≤ calculateEV o.bookmaker_odds o.probability) ∧
    (∀ (mt : String) (ks : List String) (bms : List Bookmaker)
        (sp : MarketStatProbs) (th : ℚ) (r : MarketEVResult),
        calculateMarketEV mt ks bms (some sp) th = some r →
        ∀ b ∈ bms.filter (fun b => (b.markets mt).isSome), ∀ k ∈ ks,
          th ≤ calculateEV (oddsOf b mt k) (sp.probabilities k) →
          mkOpportunity mt b k sp ∈ r.opportunities) ∧
    (∀ (od : Option OddsData) (sp : Option StatisticalProbabilities) (th : ℚ),
        ∀ o ∈ (calculateMatchEV od sp th).all_opportunities,
          th ≤ calculateEV o.bookmaker_odds o.probability) := by
  refine ⟨?_, ?_, ?_⟩
  · intro mt ks bms sp th r h o ho
    rw [calculateMarketEV_opportunities h, mem_sortByEvDesc] at ho
    exact ev_of_mem_preOpportunities ho
  · intro mt ks bms sp th r h b hb k hk hev
    rw [calculateMarketEV_opportunities h, mem_sortByEvDesc, mem_preOpportunities]
    exact ⟨b, hb, k, hk, hev, rfl⟩
  · intro od sp th o ho
    cases od with
    | none => simp [calculateMatchEV] at ho
    | some od =>
      cases od with
      | mk obs =>
        cases obs with
        | none => simp [calculateMatchEV] at ho
        | some bms =>
          unfold calculateMatchEV at ho
          dsimp only at ho
          by_cases he : bms.isEmpty = true
          · rw [if_pos he] at ho
            simp at ho
          · rw [if_neg he] at ho
            cases sp with
            | none => simp at ho
            | some s =>
              dsimp only at ho
              rw [calculate1X2EV_def, calculateOUEV_def, calculateBTTSEV_def,
                mem_sortByEvDesc] at ho
              rcases List.mem_append.mp ho with h12 | h3
              · rcases List.mem_append.mp h12 with h1 | h2
                · exact mem_opportunities_marketEV h1
                · exact mem_opportunities_marketEV h2
              · exact mem_opportunities_marketEV h3

/-- C2 witness: the concrete fixture opportunity meets the threshold 4
and is emitted in the concrete market result. -/
theorem C2_threshold_filter_witness :
    calculateMarketEV "1X2" ["home", "draw", "away"] [wBookmaker] (some wStat) 4 =
        some wMarketResult ∧
      wBookmaker ∈ [wBookmaker].filter (fun b => (b.markets "1X2").isSome) ∧
      "home" ∈ (["home", "draw", "away"] : List String) ∧
      (4 : ℚ) ≤ calculateEV (oddsOf wBookmaker "1X2" "home")
        (wStat.probabilities "home") ∧
      mkOpportunity "1X2" wBookmaker "home" wStat ∈ wMarketResult.opportunities := by
  have h1 : calculateMarketEV "1X2" ["home", "draw", "away"] [wBookmaker]
      (some wStat) 4 = some wMarketResult := by
    simp [calculateMarketEV, wMarketResult, wBookmaker]
  have h2 : wBookmaker ∈ [wBookmaker].filter (fun b => (b.markets "1X2").isSome) := by
    simp [wBookmaker]
  have h3 : "home" ∈ (["home", "draw", "away"] : List String) := by simp
  have h4 : (4 : ℚ) ≤ calculateEV (oddsOf wBookmaker "1X2" "home")
      (wStat.probabilities "home") := by
    norm_num [calculateEV, oddsOf, wBookmaker, wStat]
  exact ⟨h1, h2, h3, h4,
    C2_threshold_filter.2.1 "1X2" _ _ _ _ _ h1 wBookmaker h2 "home" h3 h4⟩

/-- C9: every emitted market opportunity list, and the cross-market
all_opportunities list, is sorted by descending (rounded) EV percentage,
and elements with equal EV percentage keep the order of the pre-sort push
order (the stable-sort property), stated as preservation of every
equal-EV subsequence. -/
theorem C9_descending_sort :
    (∀ (mt : String) (ks : List String) (bms : List Bookmaker)
        (sp : MarketStatProbs) (th : ℚ) (r : MarketEVResult),
        calculateMarketEV mt ks bms (some sp) th = some r →
        List.Sorted evDescRel r.opportunities ∧
        ∀ v, r.opportunities.filter (evKeyPred v) =
          (preOpportunities mt ks (bms.filter fun b => (b.markets mt).isSome) sp
            th).filter (evKeyPred v)) ∧
    (∀ (od : Option OddsData) (sp : Option StatisticalProbabilities) (th : ℚ),
        List.Sorted evDescRel (calculateMatchEV od sp th).all_opportunities ∧
        ∀ v, (calculateMatchEV od sp th).all_opportunities.filter (evKeyPred v) =
          (opportunitiesOf (calculateMatchEV od sp th).ev1X2 ++
            opportunitiesOf (calculateMatchEV od sp th).evOU ++
            opportunitiesOf (calculateMatchEV od sp th).evBTTS).filter
              (evKeyPred v)) := by
  constructor
  · intro mt ks bms sp th r h
    rw [calculateMarketEV_opportunities h]
    exact ⟨sorted_sortByEvDesc _, fun v => filter_sortByEvDesc v _⟩
  · intro od sp th
    cases od with
    | none => exact ⟨List.sorted_nil, fun v => rfl⟩
    | some od =>
      cases od with
      | mk obs =>
        cases obs with
        | none => exact ⟨List.sorted_nil, fun v => rfl⟩
        | some bms =>
          unfold calculateMatchEV
          dsimp only
          by_cases he : bms.isEmpty = true
          · rw [if_pos he]
            exact ⟨List.sorted_nil, fun v => rfl⟩
          · rw [if_neg he]
            cases sp with
            | none => exact ⟨List.sorted_nil, fun v => rfl⟩
            | some s =>
              dsimp only
              exact ⟨sorted_sortByEvDesc _, fun v => filter_sortByEvDesc v _⟩

/-- C9 witness: the sortedness conclusion at the concrete fixture
market. -/
theorem C9_descending_sort_witness :
    calculateMarketEV "1X2" ["home", "draw", "away"] [wBookmaker] (some wStat) 4 =
        some wMarketResult ∧
      List.Sorted evDescRel wMarketResult.opportunities := by
  have h1 : calculateMarketEV "1X2" ["home", "draw", "away"] [wBookmaker]
      (some wStat) 4 = some wMarketResult := by
    simp [calculateMarketEV, wMarketResult, wBookmaker]
  exact ⟨h1,
    (C9_descending_sort.1 "1X2" ["home", "draw", "away"] [wBookmaker] wStat 4
        wMarketResult h1).1⟩

/-- C3: for every pair of positive Poisson rates, the three normalized
1X2 probabilities sum to 1 (hence within the stated 1e-6 tolerance), the
over and under probabilities sum to exactly 1 by complement construction,
and the BTTS yes and no probabilities sum to exactly 1. -/
theorem C3_probability_sums :
    ∀ hg ag : ℝ, 0 < hg → 0 < ag →
      |(calculate1X2Probabilities hg ag).home + (calculate1X2Probabilities hg ag).draw +
            (calculate1X2Probabilities hg ag).away - 1| ≤ 1 / 1000000 ∧
      (calculateOverUnderProbabilities hg ag).over +
          (calculateOverUnderProbabilities hg ag).under = 1 ∧
      (calculateBTTSProbabilities hg ag).yes +
          (calculateBTTSProbabilities hg ag).no = 1 := by
  intro hg ag hh ha
  refine ⟨?_, ?_, ?_⟩
  · have htot : bucketTotal hg ag ≠ 0 := ne_of_gt (bucketTotal_pos hh ha)
    unfold calculate1X2Probabilities
    dsimp only
    rw [div_add_div_same, div_add_div_same,
      show homeBucket hg ag + drawBucket hg ag + awayBucket hg ag =
        bucketTotal hg ag from rfl,
      div_self htot]
    norm_num
  · unfold calculateOverUnderProbabilities
    dsimp only
    ring
  · unfold calculateBTTSProbabilities
    dsimp only
    ring

/-- C3 witness: the sum properties at the concrete rate pair (1, 1). -/
theorem C3_probability_sums_witness :
    (0 : ℝ) < 1 ∧
      (|(calculate1X2Probabilities 1 1).home + (calculate1X2Probabilities 1 1).draw +
            (calculate1X2Probabilities 1 1).away - 1| ≤ 1 / 1000000 ∧
        (calculateOverUnderProbabilities 1 1).over +
            (calculateOverUnderProbabilities 1 1).under = 1 ∧
        (calculateBTTSProbabilities 1 1).yes +
            (calculateBTTSProbabilities 1 1).no = 1) :=
  ⟨by norm_num, C3_probability_sums 1 1 (by norm_num) (by norm_num)⟩

/-- C5: the fair-price deriver of the EV calculator returns the sentinel
0 (without raising, being a total function) for any outcome whose
probability is zero; moreover every probability produced by the model for
positive rates is strictly positive, and the synthesized rates are
floored at 0.3, so no zero-probability outcome occurs in any market of
the produced result (where fair odds are the plain reciprocals). -/
theorem C5_zero_probability_sentinel :
    (∀ (probs : String → ℚ) (key : String), probs key = 0 →
        calculateFairOdds probs key = 0) ∧
    (∀ hg ag : ℝ, 0 < hg → 0 < ag →
        0 < (calculate1X2Probabilities hg ag).home ∧
        0 < (calculate1X2Probabilities hg ag).draw ∧
        0 < (calculate1X2Probabilities hg ag).away ∧
        0 < (calculateOverUnderProbabilities hg ag).over ∧
        0 < (calculateOverUnderProbabilities hg ag).under ∧
        0 < (calculateBTTSProbabilities hg ag).yes ∧
        0 < (calculateBTTSProbabilities hg ag).no) ∧
    (∀ (hf af : TeamForm) (h2 : H2HData),
        0 < (calculateExpectedGoals hf af h2).home ∧
        0 < (calculateExpectedGoals hf af h2).away) := by
  refine ⟨?_, ?_, ?_⟩
  · intro probs key h
    unfold calculateFairOdds
    rw [h]
    norm_num
  · intro hg ag hh ha
    have htot := bucketTotal_pos hh ha
    have hunder : 0 < jointSum hg ag fun i j => i + j ≤ 2 :=
      jointSum_pos hh ha _ (i := 0) (j := 0) (by norm_num) (by norm_num)
        (by norm_num)
    have hunder1 := under25_lt_one hh ha
    have h0h : poissonProbability hg 0 < 1 := by
      rw [poissonProbability_zero]
      exact Real.exp_lt_one_iff.mpr (by linarith)
    have h0a : poissonProbability ag 0 < 1 := by
      rw [poissonProbability_zero]
      exact Real.exp_lt_one_iff.mpr (by linarith)
    have hp0h := poissonProbability_pos hh 0
    have hp0a := poissonProbability_pos ha 0
    refine ⟨?_, ?_, ?_, ?_, ?_, ?_, ?_⟩
    · exact div_pos
        (jointSum_pos hh ha _ (i := 1) (j := 0) (by norm_num) (by norm_num)
          (by norm_num)) htot
    · exact div_pos
        (jointSum_pos hh ha _ (i := 0) (j := 0) (by norm_num) (by norm_num)
          (by norm_num)) htot
    · exact div_pos
        (jointSum_pos hh ha _ (i := 0) (j := 1) (by norm_num) (by norm_num)
          (by norm_num)) htot
    · show (0 : ℝ) < 1 - jointSum hg ag fun i j => i + j ≤ 2
      linarith
    · exact hunder
    · show (0 : ℝ) < 1 -
        (poissonProbability hg 0 + poissonProbability ag 0 -
          poissonProbability hg 0 * poissonProbability ag 0)
      nlinarith
    · show (0 : ℝ) < 1 - (1 -
        (poissonProbability hg 0 + poissonProbability ag 0 -
          poissonProbability hg 0 * poissonProbability ag 0))
      nlinarith
  · intro hf af h2
    constructor
    · exact lt_max_iff.mpr (Or.inl (by norm_num))
    · exact lt_max_iff.mpr (Or.inl (by norm_num))

/-- C5 witness: the sentinel at the all-zero probability mapping, and a
positive produced probability at the concrete rate pair (1, 1). -/
theorem C5_zero_probability_sentinel_witness :
    calculateFairOdds (fun _ => 0) "home" = 0 ∧
      0 < (calculate1X2Probabilities 1 1).home :=
  ⟨C5_zero_probability_sentinel.1 (fun _ => 0) "home" rfl,
    (C5_zero_probability_sentinel.2.1 1 1 (by norm_num) (by norm_num)).1⟩

end Betapi
